import Mathlib

/-!
Verification of `ha_shortcuts.py` (okruts/ha-shortcuts-helper).

Shallow embedding of the program's data model and operations:
configuration validation, action formatting, the HTTP request builder,
the hotkey-combo translation, the background process lifecycle and the
command routing, together with theorems settling the specification's
claims about them.
-/

namespace HaShortcuts

/-- `server` section of a validated config: `{base_url, token}`. -/
structure ServerConfig where
  base_url : String
  token : String
deriving DecidableEq, Repr

/-- A validated shortcut entry after `validate_config` applied defaults:
`body` defaults to the empty mapping, `hotkey` to `None`.
The JSON body is modelled as an association list; only its contents and
emptiness matter to the program. -/
structure Action where
  name : String
  method : String
  endpoint : String
  body : List (String × String)
  hotkey : Option String
deriving DecidableEq, Repr

/-- A validated configuration: server plus ordered shortcut list. -/
structure Config where
  server : ServerConfig
  shortcuts : List Action
deriving DecidableEq, Repr

/-- Python `s.rstrip("/")`: remove every trailing `/` character. -/
def rstripSlash (s : String) : String :=
  ⟨(s.data.reverse.dropWhile (fun c => c = '/')).reverse⟩

/-- Python `s.upper()` (ASCII case mapping suffices for the HTTP verbs
the program handles). -/
def pyUpper (s : String) : String :=
  ⟨s.data.map Char.toUpper⟩

/-- Python `s.lower()` (ASCII case mapping suffices for the hotkey
tokens the program handles). -/
def pyLower (s : String) : String :=
  ⟨s.data.map Char.toLower⟩

/-- Python `s.strip()`: remove leading and trailing whitespace. -/
def pyStripChars (l : List Char) : List Char :=
  ((l.dropWhile Char.isWhitespace).reverse.dropWhile Char.isWhitespace).reverse

/-- Python `s.strip()` on strings. -/
def pyStrip (s : String) : String :=
  ⟨pyStripChars s.data⟩

/-- Helper for `pySplit`: accumulate the current field (reversed) while
walking the characters. -/
def splitCharAux (sep : Char) : List Char → List Char → List (List Char)
  | [], acc => [acc.reverse]
  | c :: rest, acc =>
    if c = sep then acc.reverse :: splitCharAux sep rest []
    else splitCharAux sep rest (c :: acc)

/-- Python `s.split(sep)` for a one-character separator: fields between
separator occurrences, none collapsed (`"".split("+") == [""]`,
`"a++b".split("+") == ["a","","b"]`). -/
def pySplit (sep : Char) (s : String) : List String :=
  (splitCharAux sep s.data []).map fun l => ⟨l⟩

/-- Python `sep.join(parts)`. -/
def pyJoin (sep : String) : List String → String
  | [] => ""
  | [x] => x
  | x :: rest => x ++ sep ++ pyJoin sep rest

/-- The HTTP request that `requests.request(...)` is invoked with in
`send_request`: method, url, headers, optional JSON body, timeout in
seconds. -/
structure HttpRequest where
  method : String
  url : String
  headers : List (String × String)
  jsonBody : Option (List (String × String))
  timeout : Nat
deriving DecidableEq, Repr

/-- The request built by `send_request` (lines 85-96 of
`ha_shortcuts.py`): `url = server["base_url"].rstrip("/") + action["endpoint"]`,
`method = action["method"].upper()`, the two headers, `body or None`
passed as JSON, `timeout=15`. -/
def send_request_request (server : ServerConfig) (action : Action) : HttpRequest :=
  { method := pyUpper action.method
    url := rstripSlash server.base_url ++ action.endpoint
    headers := [("Authorization", "Bearer " ++ server.token),
                ("Content-Type", "application/json")]
    jsonBody := if action.body.isEmpty then none else some action.body
    timeout := 15 }

/-- `requests.Response.ok`: true unless the status code is a 4xx or 5xx
(`raise_for_status` raises exactly for `400 <= status < 600`). -/
def response_ok (status : Nat) : Bool :=
  !(400 ≤ status && status < 600)

/-- The result dict returned by `send_request` given the response's
status code and text and the measured elapsed milliseconds. -/
structure ExecutionResult where
  ok : Bool
  status : Nat
  elapsed_ms : Nat
  text : String
deriving DecidableEq, Repr

/-- Lines 98-103 of `ha_shortcuts.py`: package the response into the
result dict, with `ok := response.ok`. -/
def send_request_result (status : Nat) (text : String) (elapsed_ms : Nat) :
    ExecutionResult :=
  { ok := response_ok status
    status := status
    elapsed_ms := elapsed_ms
    text := text }

/-- The status word printed by `trigger_action` (line 111):
`"ok" if result["ok"] else "fail"`. -/
def trigger_status (result : ExecutionResult) : String :=
  if result.ok then "ok" else "fail"

/-! ### Raw configuration and `validate_config` -/

/-- A raw `server` mapping as parsed from the file: each required key may
be absent. -/
structure RawServer where
  base_url : Option String
  token : Option String
deriving DecidableEq, Repr

/-- A raw shortcut entry as parsed from the file: every key may be
absent. `hotkey = some v` means the key is present with value `v`
(which may itself be null, i.e. `none`). -/
structure RawAction where
  name : Option String
  method : Option String
  endpoint : Option String
  body : Option (List (String × String))
  hotkey : Option (Option String)
deriving DecidableEq, Repr

/-- The raw value found under the `shortcuts` key: either not a list
(the program rejects it) or a list of entries. -/
inductive RawShortcuts where
  | notList
  | list (entries : List RawAction)
deriving DecidableEq, Repr

/-- A raw top-level config mapping: either key may be absent. -/
structure RawConfig where
  server : Option RawServer
  shortcuts : Option RawShortcuts
deriving DecidableEq, Repr

/-- The error raised by the program's validation and loading paths,
carrying its message. -/
structure ConfigError where
  message : String
deriving DecidableEq, Repr

/-- The per-entry step of `validate_config` (lines 72-77): check
`name`, `method`, `endpoint` in that order, then apply the defaults
`body -> {}` and `hotkey -> None`. -/
def validate_action (a : RawAction) : Except ConfigError Action :=
  match a.name with
  | none => .error ⟨"Shortcut missing 'name'"⟩
  | some n =>
    match a.method with
    | none => .error ⟨"Shortcut missing 'method'"⟩
    | some m =>
      match a.endpoint with
      | none => .error ⟨"Shortcut missing 'endpoint'"⟩
      | some e =>
        .ok { name := n, method := m, endpoint := e,
              body := a.body.getD [], hotkey := a.hotkey.getD none }

/-- Validate each shortcut entry in order, stopping at the first
violation. -/
def validate_actions : List RawAction → Except ConfigError (List Action)
  | [] => .ok []
  | a :: rest =>
    match validate_action a with
    | .error e => .error e
    | .ok v =>
      match validate_actions rest with
      | .error e => .error e
      | .ok vs => .ok (v :: vs)

/-- `validate_config` (lines 61-77): require the top-level `server` and
`shortcuts` keys, then `base_url` and `token` under `server`, then that
`shortcuts` is a list, then validate each entry in order. The Python
function mutates `cfg` in place and returns `None`; the caller aborts on
the raised `ConfigError`, so it is modelled as returning the validated
config or the first error. -/
def validate_config (cfg : RawConfig) : Except ConfigError Config :=
  match cfg.server, cfg.shortcuts with
  | none, _ => .error ⟨"Config must contain 'server' and 'shortcuts'"⟩
  | some _, none => .error ⟨"Config must contain 'server' and 'shortcuts'"⟩
  | some server, some shortcuts =>
    match server.base_url, server.token with
    | none, _ => .error ⟨"Server config must include 'base_url' and 'token'"⟩
    | some _, none => .error ⟨"Server config must include 'base_url' and 'token'"⟩
    | some bu, some tok =>
      match shortcuts with
      | .notList => .error ⟨"'shortcuts' must be a list"⟩
      | .list entries =>
        (validate_actions entries).map
          fun va => { server := ⟨bu, tok⟩, shortcuts := va }

/-! ### Listing -/

/-- `format_action` (lines 80-82): `action.get("hotkey") or "(no hotkey)"`
treats both a missing hotkey and a falsy (empty-string) hotkey as
absent. -/
def format_action (action : Action) : String :=
  let hotkey := match action.hotkey with
    | none => "(no hotkey)"
    | some h => if h = "" then "(no hotkey)" else h
  action.name ++ " -> " ++ action.method ++ " " ++ action.endpoint ++ " " ++ hotkey

/-- The lines printed by the `--list` branch of `main` (lines 320-323):
a header, then one bulleted `format_action` line per shortcut in config
order. -/
def main_list (shortcuts : List Action) : List String :=
  "Configured shortcuts:" :: shortcuts.map (fun a => " - " ++ format_action a)

/-! ### Hotkey translation and registration -/

/-- The modifier names recognised by `_to_pynput_combo` (lines 194-197). -/
def pynputModifiers : List String :=
  ["ctrl", "control", "alt", "option", "shift",
   "cmd", "command", "super", "win", "windows"]

/-- The per-token step of `_to_pynput_combo` (lines 203-208), applied to
an already stripped and lower-cased non-empty token: modifiers and
multi-character tokens are wrapped in angle brackets, single characters
pass through. -/
def pynputToken (part : String) : String :=
  if part ∈ pynputModifiers then "<" ++ part ++ ">"
  else if part.length = 1 then part
  else "<" ++ part ++ ">"

/-- The token list built by the loop of `_to_pynput_combo` (lines
198-208): split on `+`, strip and lower-case, skip empty tokens, map
the rest through `pynputToken`. -/
def pynputParts (hotkey : String) : List String :=
  ((pySplit '+' hotkey).map (fun raw => pyLower (pyStrip raw))).filterMap
    (fun part => if part = "" then none else some (pynputToken part))

/-- `_to_pynput_combo` (lines 190-211): reject the empty hotkey, build
the token list, reject when it is empty, otherwise join with `+`. -/
def to_pynput_combo (hotkey : String) : Except ConfigError String :=
  if hotkey = "" then .error ⟨"Empty hotkey"⟩
  else
    let parts := pynputParts hotkey
    if parts = [] then .error ⟨"Invalid hotkey '" ++ hotkey ++ "'"⟩
    else .ok (pyJoin "+" parts)

/-- The `(hotkey, name)` registrations performed by
`listen_with_keyboard` (lines 134-142): shortcuts whose hotkey is
missing or falsy (empty) are skipped, the rest are registered in config
order. -/
def keyboardRegistrations (shortcuts : List Action) : List (String × String) :=
  shortcuts.filterMap fun a =>
    match a.hotkey with
    | none => none
    | some h => if h = "" then none else some (h, a.name)

/-- The `(combo, name)` registrations performed by `listen_with_pynput`
(lines 154-171), parameterised by the external `HotKey.parse` success
predicate: shortcuts whose hotkey is missing or falsy are skipped; a
translation or parse failure aborts with `ConfigError`. -/
def pynputRegistrations (parseOk : String → Bool) :
    List Action → Except ConfigError (List (String × String))
  | [] => .ok []
  | a :: rest =>
    match a.hotkey with
    | none => pynputRegistrations parseOk rest
    | some h =>
      if h = "" then pynputRegistrations parseOk rest
      else
        match to_pynput_combo h with
        | .error e => .error e
        | .ok combo =>
          if parseOk combo then
            (pynputRegistrations parseOk rest).map fun l => (combo, a.name) :: l
          else .error ⟨"Failed to parse hotkey '" ++ h ++ "'"⟩

/-! ### Command routing: `--trigger` -/

/-- Outcome of the taken `--trigger` branch (lines 326-331): the exit
code and the action handed to `trigger_action`, if any. -/
structure TriggerResult where
  exitCode : Nat
  fired : Option Action
deriving DecidableEq, Repr

/-- Outcome of the `--trigger` routing as a whole: the branch is
guarded by `if args.trigger:` (line 325), so a falsy (empty) trigger
name skips it entirely and `main` continues toward the listener
(line 334). -/
inductive TriggerOutcome where
  | fallthrough
  | result (r : TriggerResult)
deriving DecidableEq, Repr

/-- The body of the `--trigger NAME` branch (lines 326-331): collect
the shortcuts whose name equals the argument; no match prints an error
and returns 1 with no HTTP call, otherwise the first match is fired
and the command returns 0. -/
def trigger_branch (shortcuts : List Action) (name : String) : TriggerResult :=
  match shortcuts.filter (fun a => a.name = name) with
  | [] => ⟨1, none⟩
  | a :: _ => ⟨0, some a⟩

/-- The `--trigger` routing of `main` (lines 325-331): `if args.trigger:`
is a truthiness test, so the empty trigger name bypasses the branch
and falls through to the listener path. -/
def main_trigger (shortcuts : List Action) (name : String) : TriggerOutcome :=
  if name = "" then .fallthrough
  else .result (trigger_branch shortcuts name)

/-! ### Process lifecycle -/

/-- Decimal value of a digit list, most significant first. -/
def natOfDigits (ds : List Char) : Nat :=
  ds.foldl (fun n c => 10 * n + (c.toNat - 48)) 0

/-- Python `int(s)`: strip whitespace, then an optional sign followed by
at least one digit (the program only ever feeds it pid files it wrote
itself with `str(pid)`). -/
def parsePid (s : String) : Option Int :=
  match pyStripChars s.data with
  | [] => none
  | '-' :: ds =>
    if ds ≠ [] ∧ ds.all Char.isDigit then some (-(natOfDigits ds : Int)) else none
  | '+' :: ds =>
    if ds ≠ [] ∧ ds.all Char.isDigit then some (natOfDigits ds : Int) else none
  | ds =>
    if ds.all Char.isDigit then some (natOfDigits ds : Int) else none

/-- Outcome of `os.kill(pid, SIGTERM)` as seen by `stop_background`. -/
inductive KillResult where
  | ok
  | noSuchProcess
  | permissionDenied
deriving DecidableEq, Repr

/-- The OS environment `stop_background` runs against: the pid file's
contents (if it exists) and the result of signalling a given pid. -/
structure StopEnv where
  pidFile : Option String
  kill : Int → KillResult

/-- What `stop_background` did: its exit code and whether it removed
the pid file and the log file. -/
structure StopResult where
  exitCode : Nat
  pidFileRemoved : Bool
  logFileRemoved : Bool
deriving DecidableEq, Repr

/-- `stop_background` (lines 255-277). Note that the `finally` clause
removing both files runs on every path out of the `try`, including the
`return 1` of the `PermissionError` handler. -/
def stop_background (env : StopEnv) : StopResult :=
  match env.pidFile with
  | none => ⟨1, false, false⟩
  | some content =>
    match parsePid content with
    | none => ⟨1, true, false⟩
    | some pid =>
      match env.kill pid with
      | .ok => ⟨0, true, true⟩
      | .noSuchProcess => ⟨0, true, true⟩
      | .permissionDenied => ⟨1, true, true⟩

/-- Outcome of spawning the detached listener child. -/
inductive SpawnResult where
  | ok (pid : Int)
  | fail
deriving DecidableEq, Repr

/-- The OS environment `start_background` runs against: the pid file's
contents (if it exists), the `os.kill(pid, 0)` liveness probe, and the
spawn outcome. -/
structure StartEnv where
  pidFile : Option String
  isRunning : Int → Bool
  spawn : SpawnResult

/-- What `start_background` did: exit code, whether the stale pid file
was removed, the new pid written to the pid file (if any), and whether
a child was spawned. -/
structure StartResult where
  exitCode : Nat
  stalePidRemoved : Bool
  pidWritten : Option Int
  spawned : Bool
deriving DecidableEq, Repr

/-- `start_background` (lines 214-252) can also crash with an uncaught
`ValueError` when the pid file holds a non-empty non-integer string. -/
inductive StartOutcome where
  | crash
  | result (r : StartResult)
deriving DecidableEq, Repr

/-- The spawn phase of `start_background` (lines 222-252), reached after
the pid-file check. -/
def start_spawn (env : StartEnv) (staleRemoved : Bool) : StartOutcome :=
  match env.spawn with
  | .fail => .result ⟨1, staleRemoved, none, false⟩
  | .ok pid => .result ⟨0, staleRemoved, some pid, true⟩

/-- `start_background` (lines 214-252): if the pid file exists and its
stripped contents are non-empty and name a live process, refuse with
exit code 1 touching nothing; otherwise remove the stale pid file,
spawn the child, and record its pid. -/
def start_background (env : StartEnv) : StartOutcome :=
  match env.pidFile with
  | none => start_spawn env false
  | some content =>
    let pid := pyStrip content
    if pid = "" then start_spawn env true
    else
      match parsePid pid with
      | none => .crash
      | some p =>
        if env.isRunning p then .result ⟨1, false, none, false⟩
        else start_spawn env true

/-! ### Spec-side reformulations

These definitions are written from the specification's words, to be
compared against the embeddings above. -/

/-- The defaults the spec describes for a raw entry whose required keys
are present: `body` missing becomes the empty mapping, `hotkey` missing
becomes null. -/
def defaulted (a : RawAction) : Action :=
  { name := a.name.getD ""
    method := a.method.getD ""
    endpoint := a.endpoint.getD ""
    body := a.body.getD []
    hotkey := a.hotkey.getD none }

/-- A raw entry violating the spec's per-entry requirement: one of
`name`, `method`, `endpoint` is absent. -/
def c5_missing_entry_field (a : RawAction) : Prop :=
  a.name = none ∨ a.method = none ∨ a.endpoint = none

/-- The rejection condition the spec lists for `validate(raw)`:
top-level `server` or `shortcuts` absent, `server` lacking `base_url`
or `token`, `shortcuts` not a sequence, or some entry lacking
`name`/`method`/`endpoint`. -/
def c5_rejects (cfg : RawConfig) : Prop :=
  cfg.server = none ∨ cfg.shortcuts = none ∨
  (∃ s, cfg.server = some s ∧ (s.base_url = none ∨ s.token = none)) ∨
  cfg.shortcuts = some .notList ∨
  (∃ entries, cfg.shortcuts = some (.list entries) ∧
    ∃ a ∈ entries, c5_missing_entry_field a)

/-- The config the spec says validation should produce: `none` exactly
in the rejection cases, otherwise the entries with defaults applied. -/
def c5_expected (cfg : RawConfig) : Option Config :=
  match cfg.server, cfg.shortcuts with
  | some s, some (.list entries) =>
    match s.base_url, s.token with
    | some bu, some tok =>
      if entries.all (fun a => a.name.isSome && a.method.isSome && a.endpoint.isSome)
      then some ⟨⟨bu, tok⟩, entries.map defaulted⟩
      else none
    | _, _ => none
  | _, _ => none

/-- The claim's per-token rule for the pynput translation: a token
naming a known modifier, or any multi-character token, is wrapped in
angle brackets; single-character tokens pass through bare. -/
def comboTokenSpec (t : String) : String :=
  if t ∈ pynputModifiers ∨ 1 < t.length then "<" ++ t ++ ">" else t

/-- The claim's literal `--list` line format
`NAME -> METHOD ENDPOINT HOTKEY`, reading "hotkey absent" as "missing
or empty" (the reading that claim C10 makes explicit). -/
def list_line_spec (a : Action) : String :=
  a.name ++ " -> " ++ a.method ++ " " ++ a.endpoint ++ " " ++
    (match a.hotkey with
     | none => "(no hotkey)"
     | some h => if h = "" then "(no hotkey)" else h)

/-! ### Concrete inputs used by counterexamples and witnesses -/

/-- A raw shortcut entry whose required keys are present but hold empty
strings. -/
def emptyFieldsRaw : RawAction :=
  { name := some "", method := some "", endpoint := some "",
    body := none, hotkey := none }

/-- A raw config containing only `emptyFieldsRaw`. -/
def emptyFieldsCfg : RawConfig :=
  { server := some { base_url := some "http://ha:8123", token := some "tok" }
    shortcuts := some (.list [emptyFieldsRaw]) }

/-- The config `validate_config` produces for `emptyFieldsCfg`. -/
def emptyFieldsValidated : Config :=
  { server := { base_url := "http://ha:8123", token := "tok" }
    shortcuts := [{ name := "", method := "", endpoint := "",
                    body := [], hotkey := none }] }

/-- A fully-populated raw shortcut entry. -/
def goodRaw : RawAction :=
  { name := some "table_led", method := some "post",
    endpoint := some "/api/services/light/toggle",
    body := none, hotkey := some (some "ctrl+alt+l") }

/-- A well-formed raw config containing `goodRaw`. -/
def goodCfg : RawConfig :=
  { server := some { base_url := some "http://ha:8123/", token := some "tok" }
    shortcuts := some (.list [goodRaw]) }

/-- The config `validate_config` produces for `goodCfg`. -/
def goodValidated : Config :=
  { server := { base_url := "http://ha:8123/", token := "tok" }
    shortcuts := [{ name := "table_led", method := "post",
                    endpoint := "/api/services/light/toggle",
                    body := [], hotkey := some "ctrl+alt+l" }] }

/-- A validated shortcut bound to a hotkey. -/
def dupAction1 : Action :=
  { name := "table_led", method := "POST",
    endpoint := "/api/services/light/toggle", body := [], hotkey := some "ctrl+alt+l" }

/-- A second validated shortcut with the same name as `dupAction1`. -/
def dupAction2 : Action :=
  { name := "table_led", method := "GET", endpoint := "/api/states",
    body := [], hotkey := none }

/-- A validated shortcut whose name is the empty string (accepted by
`validate_config`, which only checks key presence). -/
def emptyNameAction : Action :=
  { name := "", method := "POST", endpoint := "/api/empty",
    body := [], hotkey := none }

/-- A validated shortcut whose hotkey is the empty string. -/
def emptyHotkeyAction : Action :=
  { name := "other", method := "POST", endpoint := "/api/x",
    body := [("entity_id", "light.x")], hotkey := some "" }

/-- A stop environment where the pid file holds `42` and signalling is
denied. -/
def permissionDeniedEnv : StopEnv :=
  { pidFile := some "42", kill := fun _ => .permissionDenied }

/-- A stop environment where the pid file holds `7` and signalling
succeeds. -/
def stopOkEnv : StopEnv :=
  { pidFile := some "7", kill := fun _ => .ok }

/-- A start environment whose pid file names a live process. -/
def startLiveEnv : StartEnv :=
  { pidFile := some "123", isRunning := fun _ => true, spawn := .ok 456 }

/-- A start environment whose pid file is stale (process not running). -/
def startStaleEnv : StartEnv :=
  { pidFile := some "123", isRunning := fun _ => false, spawn := .ok 456 }

end HaShortcuts

namespace HaShortcuts

/-- C1: for every server config and shortcut, `send_request` builds the
URL as the base url with trailing slashes stripped concatenated with the
endpoint, upper-cases the method, sends the Bearer-token and
Content-Type headers, sends the JSON body exactly when the body mapping
is non-empty, and uses a 15-second timeout. -/
theorem send_request_contract (server : ServerConfig) (action : Action) :
    (send_request_request server action).url
      = rstripSlash server.base_url ++ action.endpoint ∧
    (send_request_request server action).method = pyUpper action.method ∧
    (send_request_request server action).headers
      = [("Authorization", "Bearer " ++ server.token),
         ("Content-Type", "application/json")] ∧
    ((send_request_request server action).jsonBody = none ↔ action.body = []) ∧
    ((send_request_request server action).jsonBody = some action.body
      ↔ action.body ≠ []) ∧
    (send_request_request server action).timeout = 15 := by
  refine ⟨rfl, rfl, rfl, ?_, ?_, rfl⟩ <;>
    simp [send_request_request, List.isEmpty_iff]

/-- C2 counterexample: a 304 Not Modified response is not in the 2xx
range, yet `trigger_action` reports `ok` for it, because
`requests.Response.ok` is true for every status below 400. -/
theorem trigger_status_not_2xx_only :
    trigger_status (send_request_result 304 "" 5) = "ok" ∧
    ¬(200 ≤ 304 ∧ 304 < 300) := by
  constructor
  · rfl
  · decide

/-- C2 (amended): the reported status line says `ok` if and only if the
response status code is outside the client/server error range
`400..599`; every 4xx or 5xx response is reported as `fail`. -/
theorem trigger_status_ok_iff (status : Nat) (text : String) (ms : Nat) :
    (trigger_status (send_request_result status text ms) = "ok"
      ↔ ¬(400 ≤ status ∧ status < 600)) ∧
    (trigger_status (send_request_result status text ms) = "fail"
      ↔ (400 ≤ status ∧ status < 600)) := by
  constructor <;>
    simp [trigger_status, send_request_result, response_ok,
      Bool.and_eq_true, decide_eq_true_iff]

/-! ### Validation lemmas (shared) -/

/-- `validate_action` succeeds exactly when the three required keys are
present, and then produces the entry with defaults applied. -/
theorem validate_action_toOption (a : RawAction) :
    (validate_action a).toOption =
      if a.name.isSome && a.method.isSome && a.endpoint.isSome
      then some (defaulted a) else none := by
  rcases a with ⟨n, m, e, b, hk⟩
  cases n <;> cases m <;> cases e <;>
    simp [validate_action, defaulted, Except.toOption]

/-- `validate_actions` succeeds exactly when every entry has the three
required keys, and then produces the entries with defaults applied. -/
theorem validate_actions_toOption (l : List RawAction) :
    (validate_actions l).toOption =
      if l.all (fun a => a.name.isSome && a.method.isSome && a.endpoint.isSome)
      then some (l.map defaulted) else none := by
  induction l with
  | nil => rfl
  | cons a rest ih =>
    have ha := validate_action_toOption a
    rw [List.all_cons, List.map_cons]
    cases hc : (a.name.isSome && a.method.isSome && a.endpoint.isSome) with
    | false =>
      rw [hc] at ha
      cases hact : validate_action a with
      | ok v => rw [hact] at ha; simp [Except.toOption] at ha
      | error e => simp [validate_actions, hact, Except.toOption]
    | true =>
      rw [hc] at ha
      cases hact : validate_action a with
      | error e => rw [hact] at ha; simp [Except.toOption] at ha
      | ok v =>
        rw [hact] at ha
        simp only [Except.toOption, if_true] at ha
        have hv : v = defaulted a := Option.some.inj ha
        cases hrest : validate_actions rest with
        | error e =>
          rw [hrest] at ih
          simp only [Except.toOption] at ih
          cases hr : rest.all
              (fun a => a.name.isSome && a.method.isSome && a.endpoint.isSome) with
          | true => rw [hr] at ih; simp at ih
          | false => simp [validate_actions, hact, hrest, Except.toOption, hr]
        | ok vs =>
          rw [hrest] at ih
          simp only [Except.toOption] at ih
          cases hr : rest.all
              (fun a => a.name.isSome && a.method.isSome && a.endpoint.isSome) with
          | false => rw [hr] at ih; simp at ih
          | true =>
            rw [hr] at ih
            have hvs : vs = rest.map defaulted := Option.some.inj (by simpa using ih)
            subst hv hvs
            simp [validate_actions, hact, hrest, Except.toOption]

/-- `validate_config` succeeds exactly as the spec's
`c5_expected` describes, producing the defaulted config. -/
theorem validate_config_toOption (cfg : RawConfig) :
    (validate_config cfg).toOption = c5_expected cfg := by
  rcases cfg with ⟨srv, sc⟩
  cases srv with
  | none => cases sc <;> rfl
  | some s =>
    cases sc with
    | none => rfl
    | some sc =>
      rcases s with ⟨bu, tok⟩
      cases bu <;> cases tok <;> cases sc <;>
        try rfl
      case some.some.list entries =>
        have h := validate_actions_toOption entries
        cases hval : validate_actions entries with
        | error e =>
          rw [hval] at h
          simp only [Except.toOption] at h
          cases hall : entries.all
              (fun a => a.name.isSome && a.method.isSome && a.endpoint.isSome) with
          | true => rw [hall] at h; simp at h
          | false =>
            simp [validate_config, c5_expected, hval, Except.toOption, Except.map, hall]
        | ok vs =>
          rw [hval] at h
          simp only [Except.toOption] at h
          cases hall : entries.all
              (fun a => a.name.isSome && a.method.isSome && a.endpoint.isSome) with
          | false => rw [hall] at h; simp at h
          | true =>
            rw [hall] at h
            have hvs : vs = entries.map defaulted := Option.some.inj (by simpa using h)
            subst hvs
            simp [validate_config, c5_expected, hval, Except.toOption, Except.map, hall]

/-- A raw entry misses a required key exactly when the program's
per-entry boolean check fails. -/
theorem missing_entry_field_iff (a : RawAction) :
    c5_missing_entry_field a ↔
      ¬(a.name.isSome && a.method.isSome && a.endpoint.isSome) = true := by
  rcases a with ⟨n, m, e, b, hk⟩
  cases n <;> cases m <;> cases e <;> simp [c5_missing_entry_field]

/-- The spec's `c5_expected` is `none` exactly in the spec's listed
rejection cases. -/
theorem c5_expected_none_iff (cfg : RawConfig) :
    c5_expected cfg = none ↔ c5_rejects cfg := by
  rcases cfg with ⟨srv, sc⟩
  cases srv with
  | none =>
    simp [c5_expected, c5_rejects]
  | some s =>
    cases sc with
    | none => simp [c5_expected, c5_rejects]
    | some sc =>
      rcases s with ⟨bu, tok⟩
      cases sc with
      | notList => cases bu <;> cases tok <;> simp [c5_expected, c5_rejects]
      | list entries =>
        cases bu with
        | none => simp [c5_expected, c5_rejects]
        | some bu =>
          cases tok with
          | none => simp [c5_expected, c5_rejects]
          | some tok =>
            have hrej : c5_rejects ⟨some ⟨some bu, some tok⟩, some (.list entries)⟩
                ↔ ∃ a ∈ entries, c5_missing_entry_field a := by
              simp [c5_rejects]
            rw [hrej]
            simp only [c5_expected]
            cases hall : entries.all
                (fun a => a.name.isSome && a.method.isSome && a.endpoint.isSome) with
            | true =>
              simp only [hall, if_true]
              constructor
              · intro h; exact absurd h (by simp)
              · rintro ⟨a, ha, hmiss⟩
                rw [missing_entry_field_iff] at hmiss
                exact absurd (List.all_eq_true.mp hall a ha) hmiss
            | false =>
              constructor
              · intro _
                rcases List.all_eq_false.mp hall with ⟨a, ha, hp⟩
                exact ⟨a, ha, (missing_entry_field_iff a).mpr hp⟩
              · intro _; rfl

/-- C4 counterexample: `validate_config` accepts a config whose only
shortcut has empty-string `name`, `method` and `endpoint` — it checks
key presence, never non-emptiness. -/
theorem validate_config_accepts_empty_fields :
    validate_config emptyFieldsCfg = .ok emptyFieldsValidated ∧
    emptyFieldsValidated.shortcuts.map Action.name = [""] ∧
    emptyFieldsValidated.shortcuts.map Action.method = [""] ∧
    emptyFieldsValidated.shortcuts.map Action.endpoint = [""] :=
  ⟨rfl, rfl, rfl, rfl⟩

/-- C4 (amended): every raw config accepted by `validate_config` has,
in every shortcut entry, the keys `name`, `method` and `endpoint`
present — though their values may be empty strings. -/
theorem validate_config_requires_keys (cfg : RawConfig) (c : Config)
    (entries : List RawAction)
    (hs : cfg.shortcuts = some (.list entries))
    (h : validate_config cfg = .ok c) :
    ∀ a ∈ entries,
      a.name.isSome = true ∧ a.method.isSome = true ∧ a.endpoint.isSome = true := by
  have ht : c5_expected cfg = some c := by
    rw [← validate_config_toOption, h]; rfl
  rcases cfg with ⟨srv, sc⟩
  subst hs
  cases srv with
  | none => simp [c5_expected] at ht
  | some s =>
    rcases s with ⟨bu, tok⟩
    cases bu <;> cases tok <;> simp [c5_expected] at ht
    rcases ht with ⟨hall, -⟩
    intro a ha
    have h3 := hall a ha
    simp_all

/-- Witness for the amended C4 at a concrete accepted config. -/
theorem validate_config_requires_keys_witness :
    goodRaw.name.isSome = true ∧ goodRaw.method.isSome = true ∧
      goodRaw.endpoint.isSome = true :=
  validate_config_requires_keys goodCfg goodValidated [goodRaw] rfl (by rfl)
    goodRaw (by simp)

/-- C5: `validate_config` rejects a raw config exactly in the spec's
listed cases (top-level `server`/`shortcuts` absent, `server` lacking
`base_url`/`token`, `shortcuts` not a sequence, an entry lacking
`name`/`method`/`endpoint`), and on success produces exactly the
entries with the spec's defaults applied (`body` to the empty mapping,
`hotkey` to null). The `Except` result is all-or-nothing: an error
carries no partial config. -/
theorem validate_config_spec (cfg : RawConfig) :
    (validate_config cfg).toOption = c5_expected cfg ∧
    (c5_expected cfg = none ↔ c5_rejects cfg) :=
  ⟨validate_config_toOption cfg, c5_expected_none_iff cfg⟩

/-! ### Hotkey translation lemmas -/

/-- `splitCharAux` always yields at least one field. -/
theorem splitCharAux_ne_nil (sep : Char) (l acc : List Char) :
    splitCharAux sep l acc ≠ [] := by
  induction l generalizing acc with
  | nil => simp [splitCharAux]
  | cons c rest ih =>
    by_cases hc : c = sep <;> simp [splitCharAux, hc, ih]

/-- On a non-empty token the program's wrapping rule agrees with the
claim's wrapping rule. -/
theorem pynputToken_eq_spec (t : String) (h : t ≠ "") :
    pynputToken t = comboTokenSpec t := by
  by_cases hm : t ∈ pynputModifiers
  · simp [pynputToken, comboTokenSpec, hm]
  · have hlen : t.length ≠ 0 := by
      intro h0
      apply h
      cases t with
      | mk data =>
        cases data with
        | nil => rfl
        | cons c cs => simp [String.length] at h0
    by_cases h1 : t.length = 1
    · simp [pynputToken, comboTokenSpec, hm, h1]
    · have h2 : 1 < t.length := by omega
      simp [pynputToken, comboTokenSpec, hm, h1, h2]

/-- When no token is empty, the skip branch of the loop never fires. -/
theorem filterMap_tokens_eq_map (l : List String) (h : ∀ t ∈ l, t ≠ "") :
    l.filterMap (fun part => if part = "" then none else some (pynputToken part))
      = l.map pynputToken := by
  induction l with
  | nil => rfl
  | cons a rest ih =>
    have ha : a ≠ "" := h a (by simp)
    simp [List.filterMap_cons, ha, ih fun t ht => h t (by simp [ht])]

/-- C6: for every hotkey string whose stripped lower-cased tokens are
all non-empty, the pynput translation splits on `+`, strips and
lower-cases each token, wraps every modifier-named or multi-character
token in angle brackets, passes single-character tokens through bare,
and joins with `+`. -/
theorem to_pynput_combo_spec (hotkey : String) (hne : hotkey ≠ "")
    (htok : ∀ t ∈ (pySplit '+' hotkey).map (fun r => pyLower (pyStrip r)), t ≠ "") :
    to_pynput_combo hotkey
      = .ok (pyJoin "+"
          (((pySplit '+' hotkey).map (fun r => pyLower (pyStrip r))).map
            comboTokenSpec)) := by
  have hmap : pynputParts hotkey
      = ((pySplit '+' hotkey).map (fun r => pyLower (pyStrip r))).map pynputToken := by
    unfold pynputParts
    exact filterMap_tokens_eq_map _ htok
  have hspec : ((pySplit '+' hotkey).map (fun r => pyLower (pyStrip r))).map pynputToken
      = ((pySplit '+' hotkey).map (fun r => pyLower (pyStrip r))).map comboTokenSpec :=
    List.map_congr_left fun t ht => pynputToken_eq_spec t (htok t ht)
  have hnil : pynputParts hotkey ≠ [] := by
    rw [hmap]
    simp [pySplit, splitCharAux_ne_nil]
  simp only [to_pynput_combo]
  rw [if_neg hne, if_neg hnil, hmap, hspec]

/-- Witness for C6: `"ctrl+alt+l"` yields exactly the tokens `<ctrl>`,
`<alt>`, `l`. -/
theorem to_pynput_combo_spec_witness :
    ("ctrl+alt+l" : String) ≠ "" ∧
    to_pynput_combo "ctrl+alt+l" = .ok "<ctrl>+<alt>+l" := by
  constructor
  · decide
  · rw [to_pynput_combo_spec "ctrl+alt+l" (by decide) (by decide)]
    rfl

/-! ### `--trigger` routing lemmas -/

/-- The first shortcut matching the name wins immediately. -/
theorem trigger_branch_cons_of_eq (b : Action) (rest : List Action) (name : String)
    (hb : b.name = name) :
    trigger_branch (b :: rest) name = ⟨0, some b⟩ := by
  simp [trigger_branch, List.filter_cons, hb]

/-- A non-matching head shortcut is passed over. -/
theorem trigger_branch_cons_of_ne (b : Action) (rest : List Action) (name : String)
    (hb : b.name ≠ name) :
    trigger_branch (b :: rest) name = trigger_branch rest name := by
  simp [trigger_branch, List.filter_cons, hb]

/-- Inside the taken branch: no match returns exit 1 firing nothing,
otherwise the first match in file order fires with exit 0. -/
theorem trigger_branch_spec (shortcuts : List Action) (name : String) :
    ((∀ a ∈ shortcuts, a.name ≠ name) →
      trigger_branch shortcuts name = ⟨1, none⟩) ∧
    (∀ a, shortcuts.find? (fun x => x.name = name) = some a →
      trigger_branch shortcuts name = ⟨0, some a⟩) := by
  induction shortcuts with
  | nil =>
    refine ⟨fun _ => rfl, fun a ha => ?_⟩
    simp [List.find?] at ha
  | cons b rest ih =>
    constructor
    · intro hall
      have hb : b.name ≠ name := hall b (by simp)
      rw [trigger_branch_cons_of_ne b rest name hb]
      exact ih.1 fun a ha => hall a (by simp [ha])
    · intro a ha
      by_cases hb : b.name = name
      · have hba : b = a := by
          rw [List.find?_cons_of_pos _ (by simp [hb])] at ha
          exact Option.some.inj ha
        subst hba
        exact trigger_branch_cons_of_eq b rest name hb
      · rw [trigger_branch_cons_of_ne b rest name hb]
        apply ih.2
        rw [List.find?_cons_of_neg _ (by simp [hb])] at ha
        exact ha

/-- C7 counterexample: the trigger branch is guarded by the truthiness
test `if args.trigger:`, so an empty trigger name skips it entirely —
no exit-1 no-match error even though nothing matches, and no firing
even when a shortcut named `""` exists (which validation accepts). -/
theorem main_trigger_empty_name_skipped :
    main_trigger [dupAction1] "" = .fallthrough ∧
    main_trigger [emptyNameAction] "" = .fallthrough ∧
    main_trigger [dupAction1] "" ≠ .result ⟨1, none⟩ ∧
    main_trigger [emptyNameAction] "" ≠ .result ⟨0, some emptyNameAction⟩ := by
  refine ⟨rfl, rfl, ?_, ?_⟩ <;> decide

/-- C7 (amended): for every non-empty trigger name, a name matching no
shortcut makes the taken branch return exit code 1 firing nothing (no
HTTP call); when matches exist, the first match in file order is fired
and the command exits 0. (An empty trigger name is falsy and bypasses
the branch, falling through to the listener.) -/
theorem main_trigger_spec (shortcuts : List Action) (name : String)
    (hne : name ≠ "") :
    ((∀ a ∈ shortcuts, a.name ≠ name) →
      main_trigger shortcuts name = .result ⟨1, none⟩) ∧
    (∀ a, shortcuts.find? (fun x => x.name = name) = some a →
      main_trigger shortcuts name = .result ⟨0, some a⟩) := by
  have hmt : main_trigger shortcuts name
      = .result (trigger_branch shortcuts name) := by
    simp [main_trigger, hne]
  constructor
  · intro hall
    rw [hmt, (trigger_branch_spec shortcuts name).1 hall]
  · intro a ha
    rw [hmt, (trigger_branch_spec shortcuts name).2 a ha]

/-- Witness for the amended C7 at a concrete shortcut list with a
duplicate name: an unknown name exits 1 firing nothing, the duplicate
name fires the first definition. -/
theorem main_trigger_spec_witness :
    main_trigger [dupAction1, dupAction2] "nope" = .result ⟨1, none⟩ ∧
    main_trigger [dupAction1, dupAction2] "table_led"
      = .result ⟨0, some dupAction1⟩ := by
  constructor
  · exact (main_trigger_spec [dupAction1, dupAction2] "nope" (by decide)).1
      (by decide)
  · exact (main_trigger_spec [dupAction1, dupAction2] "table_led" (by decide)).2
      dupAction1 (by decide)

/-! ### Process lifecycle theorems -/

/-- C3 counterexample: with a readable pid file and a permission-denied
signal, `stop_background` exits 1 but the `finally` clause still runs,
removing both the pid file and the log file — the pid file is not left
intact. -/
theorem stop_background_permission_denied_cleans :
    stop_background permissionDeniedEnv = ⟨1, true, true⟩ ∧
    (stop_background permissionDeniedEnv).pidFileRemoved = true :=
  ⟨rfl, rfl⟩

/-- C3 (amended): once a pid is read from the pid file, the pid file and
the log file are removed on every outcome, including permission denied,
and the exit code is 1 exactly on permission denied. -/
theorem stop_background_spec (env : StopEnv) (content : String) (pid : Int)
    (hfile : env.pidFile = some content)
    (hparse : parsePid content = some pid) :
    (stop_background env).pidFileRemoved = true ∧
    (stop_background env).logFileRemoved = true ∧
    ((stop_background env).exitCode = 1 ↔ env.kill pid = .permissionDenied) := by
  simp only [stop_background, hfile, hparse]
  cases hk : env.kill pid <;> simp [hk]

/-- Witness for the amended C3 at a concrete environment where the
signal succeeds. -/
theorem stop_background_spec_witness :
    (stop_background stopOkEnv).pidFileRemoved = true ∧
    (stop_background stopOkEnv).logFileRemoved = true ∧
    ((stop_background stopOkEnv).exitCode = 1
      ↔ stopOkEnv.kill 7 = .permissionDenied) :=
  stop_background_spec stopOkEnv "7" 7 rfl rfl

/-- C8: when the pid file records a pid that answers the liveness
probe, `start_background` refuses with exit code 1, neither removing
nor overwriting the pid file and spawning nothing; when the recorded
pid does not answer, the stale pid file is removed and the child is
spawned (its pid recorded) or the spawn failure reported with exit
code 1. -/
theorem start_background_spec (env : StartEnv) (content : String) (pid : Int)
    (hfile : env.pidFile = some content)
    (hparse : parsePid (pyStrip content) = some pid) :
    (env.isRunning pid = true →
      start_background env = .result ⟨1, false, none, false⟩) ∧
    (env.isRunning pid = false →
      (env.spawn = .fail →
        start_background env = .result ⟨1, true, none, false⟩) ∧
      (∀ p, env.spawn = .ok p →
        start_background env = .result ⟨0, true, some p, true⟩)) := by
  have hne : pyStrip content ≠ "" := by
    intro h0
    rw [h0] at hparse
    simp [parsePid, pyStripChars] at hparse
  constructor
  · intro hrun
    simp only [start_background, hfile]
    rw [if_neg hne, hparse]
    simp [hrun]
  · intro hrun
    have hstart : start_background env = start_spawn env true := by
      simp only [start_background, hfile]
      rw [if_neg hne, hparse]
      simp [hrun]
    constructor
    · intro hsp
      rw [hstart]
      simp [start_spawn, hsp]
    · intro p hsp
      rw [hstart]
      simp [start_spawn, hsp]

/-- Witness for C8: a live recorded pid refuses; a stale one is cleaned
up and replaced by the new child's pid. -/
theorem start_background_spec_witness :
    start_background startLiveEnv = .result ⟨1, false, none, false⟩ ∧
    start_background startStaleEnv = .result ⟨0, true, some 456, true⟩ := by
  constructor
  · exact (start_background_spec startLiveEnv "123" 123 rfl rfl).1 rfl
  · exact ((start_background_spec startStaleEnv "123" 123 rfl rfl).2 rfl).2 456 rfl

/-! ### Listing theorems -/

/-- Each listing line is exactly the claim's literal line format. -/
theorem format_action_eq_spec (a : Action) :
    format_action a = list_line_spec a := rfl

/-- C9: the list operation prints a header line and then exactly one
line per shortcut, in config order, each consisting of the bullet
`" - "` followed by the literal `NAME -> METHOD ENDPOINT HOTKEY` format
with `(no hotkey)` substituted when the hotkey is absent (or empty). -/
theorem main_list_spec (shortcuts : List Action) :
    main_list shortcuts
      = "Configured shortcuts:"
          :: shortcuts.map (fun a => " - " ++ list_line_spec a) ∧
    (main_list shortcuts).length = shortcuts.length + 1 := by
  constructor
  · simp only [main_list]
    exact congrArg _
      (List.map_congr_left fun a _ => by rw [format_action_eq_spec])
  · simp [main_list]

/-! ### Empty-string hotkey theorems -/

/-- A shortcut whose hotkey is the empty string contributes nothing to
the pynput registration list. -/
theorem pynputRegistrations_cons_empty (parseOk : String → Bool) (a : Action)
    (h : a.hotkey = some "") (l : List Action) :
    pynputRegistrations parseOk (a :: l) = pynputRegistrations parseOk l := by
  simp [pynputRegistrations, h]

/-- The pynput registration list of a cons depends on the tail only
through the tail's registration list. -/
theorem pynputRegistrations_cons_congr (parseOk : String → Bool) (b : Action)
    (l1 l2 : List Action)
    (h : pynputRegistrations parseOk l1 = pynputRegistrations parseOk l2) :
    pynputRegistrations parseOk (b :: l1) = pynputRegistrations parseOk (b :: l2) := by
  cases hb : b.hotkey with
  | none => simpa [pynputRegistrations, hb] using h
  | some hk =>
    by_cases he : hk = ""
    · simpa [pynputRegistrations, hb, he] using h
    · cases hc : to_pynput_combo hk with
      | error e => simp [pynputRegistrations, hb, he, hc]
      | ok combo =>
        by_cases hp : parseOk combo = true
        · simp [pynputRegistrations, hb, he, hc, hp, h]
        · simp [pynputRegistrations, hb, he, hc, hp]

/-- C10: a shortcut whose hotkey is the empty string is treated exactly
like one with no hotkey at every public surface: listing formats it as
`(no hotkey)`, and both hotkey backends silently skip it during
registration. -/
theorem empty_hotkey_like_absent (a : Action) (h : a.hotkey = some "")
    (pre post : List Action) (parseOk : String → Bool) :
    format_action a = format_action { a with hotkey := none } ∧
    keyboardRegistrations (pre ++ a :: post)
      = keyboardRegistrations (pre ++ post) ∧
    pynputRegistrations parseOk (pre ++ a :: post)
      = pynputRegistrations parseOk (pre ++ post) := by
  refine ⟨?_, ?_, ?_⟩
  · simp [format_action, h]
  · simp [keyboardRegistrations, List.filterMap_append, List.filterMap_cons, h]
  · induction pre with
    | nil => exact pynputRegistrations_cons_empty parseOk a h post
    | cons b rest ih => exact pynputRegistrations_cons_congr parseOk b _ _ ih

/-- Witness for C10 at a concrete shortcut with an empty-string
hotkey. -/
theorem empty_hotkey_like_absent_witness :
    format_action emptyHotkeyAction
      = format_action { emptyHotkeyAction with hotkey := none } ∧
    keyboardRegistrations [dupAction1, emptyHotkeyAction]
      = keyboardRegistrations [dupAction1] ∧
    pynputRegistrations (fun _ => true) [dupAction1, emptyHotkeyAction]
      = pynputRegistrations (fun _ => true) [dupAction1] :=
  empty_hotkey_like_absent emptyHotkeyAction rfl [dupAction1] [] (fun _ => true)

end HaShortcuts
